import Mathlib

/-!
Verification of the statement-analyzer parsers (`src/parsers/rakbank.py` and
`src/parsers/emiratesislamic.py`) against their natural-language specification.

The Python sources are shallowly embedded: each regular expression is embedded
as an explicit backtracking matcher whose result ordering reproduces the
leftmost / priority semantics of Python's `re` engine on these patterns, the
per-line loops become state-passing step functions, Python `float` amounts
become exact rationals, and an uncaught Python exception becomes `Option.none`.
Helpers that live in `common/pdf_utils.py` (absent from the repository snapshot)
are modelled from the specification and carry a doc comment saying so.
-/

/-! ## Python string primitives (ASCII fragment used by these parsers) -/

/-- Python `\s` / `str.strip` whitespace, ASCII fragment (all inputs here are
ASCII or Arabic text without exotic whitespace). -/
def isSpaceCh (c : Char) : Bool :=
  c = ' ' || c = '\t' || c = '\n' || c = '\r' || c = '\x0b' || c = '\x0c'

def isDigitCh (c : Char) : Bool := '0' ≤ c && c ≤ '9'

def isAlphaCh (c : Char) : Bool :=
  ('a' ≤ c && c ≤ 'z') || ('A' ≤ c && c ≤ 'Z')

def isDigitComma (c : Char) : Bool := isDigitCh c || c = ','

/-- `str.lower`, restricted to ASCII (Arabic letters, digits and punctuation
are fixed by Python's `str.lower` as well). -/
def lowerCh (c : Char) : Char :=
  if 'A' ≤ c && c ≤ 'Z' then Char.ofNat (c.toNat + 32) else c

def pyLower (s : String) : String := String.mk (s.data.map lowerCh)

def dropWhileL (p : Char → Bool) : List Char → List Char
  | [] => []
  | c :: cs => if p c then dropWhileL p cs else c :: cs

/-- `str.strip()` (no argument): remove leading and trailing whitespace. -/
def pyStrip (s : String) : String :=
  String.mk ((dropWhileL isSpaceCh ((dropWhileL isSpaceCh s.data).reverse)).reverse)

/-- `str.strip(chars)`: remove leading and trailing characters from `chs`. -/
def pyStripChars (chs : String) (s : String) : String :=
  String.mk ((dropWhileL (fun c => chs.data.contains c)
    ((dropWhileL (fun c => chs.data.contains c) s.data).reverse)).reverse)

def leadsWith : List Char → List Char → Bool
  | [], _ => true
  | _ :: _, [] => false
  | a :: as, b :: bs => a = b && leadsWith as bs

/-- Python `needle in hay` substring test. -/
def containsL (needle : List Char) : List Char → Bool
  | [] => needle.isEmpty
  | c :: rest => leadsWith needle (c :: rest) || containsL needle rest

def strContains (hay needle : String) : Bool := containsL needle.data hay.data

/-- `" ".join xs`. -/
def joinSpace (xs : List String) : String := String.intercalate " " xs

/-- Python `str.replace(pat, rep)` for a non-empty `pat`: replace all
non-overlapping occurrences, left to right. Fuel-driven; the top-level call
supplies `s.length` fuel, which is always enough since every step consumes at
least one input character. -/
def pyReplaceAux (pat rep : List Char) : Nat → List Char → List Char
  | 0, s => s
  | _ + 1, [] => []
  | n + 1, c :: rest =>
    if leadsWith pat (c :: rest) && !pat.isEmpty then
      rep ++ pyReplaceAux pat rep n ((c :: rest).drop pat.length)
    else
      c :: pyReplaceAux pat rep n rest

def pyReplace (s pat rep : String) : String :=
  String.mk (pyReplaceAux pat.data rep.data s.data.length s.data)

def digitsToNat (cs : List Char) : Nat :=
  cs.foldl (fun acc c => acc * 10 + (c.toNat - '0'.toNat)) 0

/-! ## Python `float()` on decimal strings

Model of the builtin `float` restricted to the decimal-literal grammar
`[sign] (digits ["." [digits]] | "." digits) [("e"|"E") [sign] digits]`, with
single underscores permitted between digits as in Python.  `inf`/`nan` inputs
are modelled as parse failures (they are unreachable from this repository's
amount tokens, which are built from digits, commas and dots). The result is an
exact rational; every amount actually parsed by these sources has an exact
decimal value. -/

/-- Consume a digit group possibly containing single underscores between
digits, returning the digits and the rest. Fails (returns `none`) on a
misplaced underscore. -/
def takeDigitsU : List Char → Option (List Char × List Char)
  | [] => some ([], [])
  | [c] => if isDigitCh c then some ([c], []) else some ([], [c])
  | c :: c2 :: rest =>
    if isDigitCh c then
      if c2 = '_' then
        match takeDigitsU rest with
        | some (d :: ds, r) => some (c :: d :: ds, r)
        | _ => none
      else
        match takeDigitsU (c2 :: rest) with
        | some (ds, r) => some (c :: ds, r)
        | none => none
    else
      some ([], c :: c2 :: rest)

/-- The significand-with-fraction part: returns `(m, f)` standing for the
value `m / 10^f`, plus the remainder. (Everything is kept in `Nat`/`Int` and
assembled with a single `mkRat` at the end, so the value computes by kernel
reduction.) -/
def pyFloatBody (cs : List Char) : Option ((Nat × Nat) × List Char) :=
  match takeDigitsU cs with
  | none => none
  | some (intDigits, rest) =>
    match rest with
    | '.' :: rest' =>
      match takeDigitsU rest' with
      | none => none
      | some (fracDigits, rest'') =>
        if intDigits.isEmpty && fracDigits.isEmpty then none
        else
          some ((digitsToNat (intDigits ++ fracDigits), fracDigits.length), rest'')
    | _ =>
      if intDigits.isEmpty then none
      else some ((digitsToNat intDigits, 0), rest)

/-- Apply the optional exponent: the value becomes `num / 10^denExp`. -/
def pyFloatExp (cs : List Char) : Option ((Nat × Nat) × List Char) :=
  match pyFloatBody cs with
  | none => none
  | some ((m, f), rest) =>
    match rest with
    | c :: rest' =>
      if c = 'e' || c = 'E' then
        let (esgn, rest'') :=
          match rest' with
          | '+' :: r => (true, r)
          | '-' :: r => (false, r)
          | r => (true, r)
        match takeDigitsU rest'' with
        | some (d :: ds, r) =>
          let e := digitsToNat (d :: ds)
          if esgn then
            if e ≥ f then some ((m * 10 ^ (e - f), 0), r)
            else some ((m, f - e), r)
          else some ((m, f + e), r)
        | _ => none
      else some ((m, f), c :: rest')
    | [] => some ((m, f), [])

/-- `float(s)` as an exact rational; `none` models a raised `ValueError`. -/
def pyFloat (s : String) : Option ℚ :=
  let cs := dropWhileL isSpaceCh s.data
  let (neg, cs') : Bool × List Char :=
    match cs with
    | '+' :: r => (false, r)
    | '-' :: r => (true, r)
    | r => (false, r)
  match pyFloatExp cs' with
  | some ((m, f), rest) =>
    if (dropWhileL isSpaceCh rest).isEmpty then
      some (mkRat (if neg then -(m : Int) else (m : Int)) (10 ^ f))
    else none
  | none => none

/-! ## A backtracking regex matcher

Each Python regex used by the parsers is embedded as an explicit matcher.
`RxM α` returns the list of all ways to match a pattern at the head of the
input (captured value paired with the remaining characters), ordered the way
Python's `re` backtracking engine explores them: greedy pieces yield longer
takes first, lazy pieces shorter takes first, alternatives in source order,
and an optional piece tries the present branch first.  Taking the head of the
result list therefore reproduces `re`'s chosen match. -/

def RxM (α : Type) : Type := List Char → List (α × List Char)

def rxPure {α : Type} (a : α) : RxM α := fun s => [(a, s)]

def rxBind {α β : Type} (m : RxM α) (f : α → RxM β) : RxM β :=
  fun s => (m s).flatMap fun p => f p.1 p.2

def rxMap {α β : Type} (f : α → β) (m : RxM α) : RxM β :=
  fun s => (m s).map fun p => (f p.1, p.2)

/-- Match one character satisfying `p`. -/
def rxCh (p : Char → Bool) : RxM Char
  | [] => []
  | c :: rest => if p c then [(c, rest)] else []

/-- Alternation, left branch first (Python source order). -/
def rxAlt {α : Type} (m1 m2 : RxM α) : RxM α := fun s => m1 s ++ m2 s

/-- `X?` greedy: present branch first, then absent. -/
def rxOpt {α : Type} (m : RxM α) : RxM (Option α) :=
  fun s => ((m s).map fun p => (some p.1, p.2)) ++ [(none, s)]

/-- `p*` greedy: longest take first. -/
def rxStarGreedy (p : Char → Bool) : RxM (List Char)
  | [] => [([], [])]
  | c :: rest =>
    if p c then
      ((rxStarGreedy p rest).map fun q => (c :: q.1, q.2)) ++ [([], c :: rest)]
    else [([], c :: rest)]

/-- `p+` greedy: longest take first. -/
def rxPlusGreedy (p : Char → Bool) : RxM (List Char) :=
  rxBind (rxCh p) fun c => rxBind (rxStarGreedy p) fun cs => rxPure (c :: cs)

/-- `p+?` lazy (used for `(.+?)`): shortest take first. -/
def rxPlusLazy (p : Char → Bool) : RxM (List Char)
  | [] => []
  | c :: rest =>
    if p c then
      ([c], rest) :: ((rxPlusLazy p rest).map fun q => (c :: q.1, q.2))
    else []

/-- `p{n}`: exactly `n` characters. -/
def rxCount (p : Char → Bool) : Nat → RxM (List Char)
  | 0 => rxPure []
  | n + 1 => rxBind (rxCh p) fun c => rxBind (rxCount p n) fun cs => rxPure (c :: cs)

/-- `p{0,n}` greedy: longest take first, at most `n`. -/
def rxUpToGreedy (p : Char → Bool) : Nat → RxM (List Char)
  | 0 => rxPure []
  | n + 1 => fun s =>
    match s with
    | [] => [([], [])]
    | c :: rest =>
      if p c then
        ((rxUpToGreedy p n rest).map fun q => (c :: q.1, q.2)) ++ [([], c :: rest)]
      else [([], c :: rest)]

/-- `p{lo,hi}` greedy. -/
def rxRange (p : Char → Bool) (lo hi : Nat) : RxM (List Char) :=
  rxBind (rxCount p lo) fun a => rxBind (rxUpToGreedy p (hi - lo)) fun b => rxPure (a ++ b)

/-- Case-sensitive literal; captures nothing. -/
def rxStr : List Char → RxM Unit
  | [] => rxPure ()
  | c :: cs => rxBind (rxCh (· = c)) fun _ => rxStr cs

/-- Case-insensitive literal (`re.IGNORECASE`); captures the matched text. -/
def rxStrCI : List Char → RxM (List Char)
  | [] => rxPure []
  | c :: cs =>
    rxBind (rxCh (fun x => lowerCh x = lowerCh c)) fun x =>
      rxBind (rxStrCI cs) fun xs => rxPure (x :: xs)

/-- `$` (on inputs without trailing newline): end of input. -/
def rxEnd : RxM Unit := fun s => if s.isEmpty then [((), s)] else []

/-- `re.match` against the whole pattern: first result in backtracking order. -/
def rxRun {α : Type} (m : RxM α) (s : String) : Option α :=
  match m s.data with
  | [] => none
  | r :: _ => some r.1

/-- `re.search`: try each start position left to right, first match wins. -/
def rxFindAux {α : Type} (m : RxM α) : List Char → Option α
  | [] =>
    match m [] with
    | [] => none
    | r :: _ => some r.1
  | c :: rest =>
    match m (c :: rest) with
    | r :: _ => some r.1
    | [] => rxFindAux m rest

def rxFind {α : Type} (m : RxM α) (s : String) : Option α := rxFindAux m s.data

/-! ## Calendar dates -/

structure PyDate where
  year : Nat
  month : Nat
  day : Nat
deriving DecidableEq, Repr

def isLeapYear (y : Nat) : Bool :=
  (y % 4 = 0 && y % 100 ≠ 0) || y % 400 = 0

def daysInMonth (y m : Nat) : Nat :=
  if m = 2 then (if isLeapYear y then 29 else 28)
  else if m = 4 || m = 6 || m = 9 || m = 11 then 30
  else 31

def pad2 (n : Nat) : String := if n < 10 then "0" ++ toString n else toString n

def pad4 (n : Nat) : String :=
  if n < 10 then "000" ++ toString n
  else if n < 100 then "00" ++ toString n
  else if n < 1000 then "0" ++ toString n
  else toString n

/-- `date.isoformat()` / `strftime("%Y-%m-%d")`. -/
def isoOfDate (d : PyDate) : String := pad4 d.year ++ "-" ++ pad2 d.month ++ "-" ++ pad2 d.day

/-- English month abbreviations, the targets of `strptime`'s `%b` (matched
case-insensitively). -/
def monthAbbrevNum (s : String) : Option Nat :=
  let l := pyLower s
  if l = "jan" then some 1 else if l = "feb" then some 2
  else if l = "mar" then some 3 else if l = "apr" then some 4
  else if l = "may" then some 5 else if l = "jun" then some 6
  else if l = "jul" then some 7 else if l = "aug" then some 8
  else if l = "sep" then some 9 else if l = "oct" then some 10
  else if l = "nov" then some 11 else if l = "dec" then some 12
  else none

/-- English full month names, the targets of `strptime`'s `%B`. -/
def monthFullNum (s : String) : Option Nat :=
  let l := pyLower s
  if l = "january" then some 1 else if l = "february" then some 2
  else if l = "march" then some 3 else if l = "april" then some 4
  else if l = "may" then some 5 else if l = "june" then some 6
  else if l = "july" then some 7 else if l = "august" then some 8
  else if l = "september" then some 9 else if l = "october" then some 10
  else if l = "november" then some 11 else if l = "december" then some 12
  else none

/-- Longest run of characters satisfying `p`, plus the remainder. -/
def spanL (p : Char → Bool) : List Char → List Char × List Char
  | [] => ([], [])
  | c :: rest =>
    if p c then
      let (run, r) := spanL p rest
      (c :: run, r)
    else ([], c :: rest)

/-- `strptime`'s `%d`: one or two digits with value 1–31.  `strptime` writes
this as the alternation `3[01]|[12]\d|0[1-9]|[1-9]`; since the day is always
followed by a non-digit in the formats used here, it is equivalent to: the
maximal digit run has length 1 or 2 and value in 1–31. -/
def parseDayTok (cs : List Char) : Option (Nat × List Char) :=
  let (run, rest) := spanL isDigitCh cs
  if run.length = 1 || run.length = 2 then
    let v := digitsToNat run
    if 1 ≤ v && v ≤ 31 then some (v, rest) else none
  else none

/-- `strptime`'s `%m`: one or two digits with value 1–12 (same reasoning). -/
def parseMonthNumTok (cs : List Char) : Option (Nat × List Char) :=
  let (run, rest) := spanL isDigitCh cs
  if run.length = 1 || run.length = 2 then
    let v := digitsToNat run
    if 1 ≤ v && v ≤ 12 then some (v, rest) else none
  else none

/-- `strptime`'s `%Y`: exactly four digits. -/
def parseYear4Tok (cs : List Char) : Option (Nat × List Char) :=
  match cs with
  | a :: b :: c :: d :: rest =>
    if isDigitCh a && isDigitCh b && isDigitCh c && isDigitCh d then
      some (digitsToNat [a, b, c, d], rest)
    else none
  | _ => none

/-- A whitespace character in a `strptime` format: `\s+`. -/
def skipWs1 (cs : List Char) : Option (List Char) :=
  let (ws, rest) := spanL isSpaceCh cs
  if ws.isEmpty then none else some rest

/-- `strptime`'s `%b`: a three-letter English month abbreviation,
case-insensitive. -/
def parseMonthAbbrevTok (cs : List Char) : Option (Nat × List Char) :=
  match cs with
  | a :: b :: c :: rest =>
    match monthAbbrevNum (String.mk [a, b, c]) with
    | some m => some (m, rest)
    | none => none
  | _ => none

def monthFullNames : List String :=
  ["January", "February", "March", "April", "May", "June", "July",
   "August", "September", "October", "November", "December"]

/-- `strptime`'s `%B`: a full English month name, case-insensitive. No name is
a proper extension of another, so trying them in any order is deterministic. -/
def parseMonthFullTok (cs : List Char) : Option (Nat × List Char) :=
  (List.range 12).foldr
    (fun i acc =>
      let name := monthFullNames.get! i
      if leadsWith (name.data.map lowerCh) (cs.map lowerCh) then
        some (i + 1, cs.drop name.length)
      else acc)
    none

/-- `datetime.datetime(y, m, d)` validity: Python accepts years 1–9999 and
checks the day against the month length (leap-aware). -/
def mkValidDate (y m d : Nat) : Option PyDate :=
  if 1 ≤ y && y ≤ 9999 && 1 ≤ m && m ≤ 12 && 1 ≤ d && d ≤ daysInMonth y m then
    some ⟨y, m, d⟩
  else none

/-- `strptime(s, "%d %b %Y")` (with `mAbbrev := true`) or `"%d %B %Y"`
(`mAbbrev := false`), including the trailing full-match requirement and the
`datetime` constructor's validity check. -/
def strptimeDMonY (mAbbrev : Bool) (s : String) : Option PyDate :=
  match parseDayTok s.data with
  | none => none
  | some (d, r1) =>
    match skipWs1 r1 with
    | none => none
    | some r2 =>
      match (if mAbbrev then parseMonthAbbrevTok r2 else parseMonthFullTok r2) with
      | none => none
      | some (m, r3) =>
        match skipWs1 r3 with
        | none => none
        | some r4 =>
          match parseYear4Tok r4 with
          | none => none
          | some (y, r5) =>
            if r5.isEmpty then mkValidDate y m d else none

/-- `strptime(s, "%d/%m/%Y")` plus validity. -/
def strptimeDMY_slash (s : String) : Option PyDate :=
  match parseDayTok s.data with
  | none => none
  | some (d, r1) =>
    match r1 with
    | '/' :: r2 =>
      match parseMonthNumTok r2 with
      | none => none
      | some (m, r3) =>
        match r3 with
        | '/' :: r4 =>
          match parseYear4Tok r4 with
          | none => none
          | some (y, r5) => if r5.isEmpty then mkValidDate y m d else none
        | _ => none
    | _ => none

/-- `strptime(s, "%Y-%m-%d")` plus validity. -/
def strptimeISO (s : String) : Option PyDate :=
  match parseYear4Tok s.data with
  | none => none
  | some (y, r1) =>
    match r1 with
    | '-' :: r2 =>
      match parseMonthNumTok r2 with
      | none => none
      | some (m, r3) =>
        match r3 with
        | '-' :: r4 =>
          match parseDayTok r4 with
          | none => none
          | some (d, r5) => if r5.isEmpty then mkValidDate y m d else none
        | _ => none
    | _ => none

/-- The two-letter ordinal suffixes recognized by `_strip_ordinal`'s pattern
`(st|nd|rd|th)`, case-insensitive. -/
def ordSuffix : List Char → Option (List Char)
  | a :: b :: rest =>
    let l := String.mk [lowerCh a, lowerCh b]
    if l = "st" || l = "nd" || l = "rd" || l = "th" then some rest else none
  | _ => none

/-- `re.sub(r'(\d+)(st|nd|rd|th)', r'\1', s, flags=IGNORECASE)`: each maximal
digit run directly followed by an ordinal suffix loses the suffix. Fuel-driven;
`s.length` fuel always suffices since each step consumes at least one input
character. -/
def stripOrdinalAux : Nat → List Char → List Char
  | 0, s => s
  | _ + 1, [] => []
  | n + 1, c :: rest =>
    if isDigitCh c then
      let (run, r) := spanL isDigitCh (c :: rest)
      match ordSuffix r with
      | some r' => run ++ stripOrdinalAux n r'
      | none => run ++ stripOrdinalAux n r
    else c :: stripOrdinalAux n rest

/-! ## Shared data model -/

/-- One transaction dict. Keys absent from a parser's dict are modelled as
`none` (`balance` and the fx fields appear only where the source adds them). -/
structure Txn where
  transaction_date : String
  description : String
  debit : ℚ
  credit : ℚ
  amount : ℚ
  balance : Option ℚ
  fx_currency : Option String
  fx_amount : Option ℚ
  fx_rate : Option ℚ
  bank : String
  card_type : String
deriving DecidableEq, Repr

/-- The failure value produced by `open_pdf_safe`: a dict carrying an
`"error"` key. -/
structure ErrDict where
  error : String
deriving DecidableEq, Repr

structure Summary where
  total_debit : ℚ
  total_credit : ℚ
  count : Nat
deriving DecidableEq, Repr

/-- The success result dict of a parse call. -/
structure ParseOk where
  bank : String
  card_type : String
  summary : Summary
  transactions : List Txn
  from_date : Option String
  to_date : Option String
deriving DecidableEq, Repr

/-- Rational addition written with `mkRat` so that it computes by kernel
reduction (`Rat.add` is `@[irreducible]`); `qadd_eq_add` below shows it is
ordinary addition. -/
def qadd (a b : ℚ) : ℚ :=
  mkRat (a.num * (b.den : Int) + b.num * (a.den : Int)) (a.den * b.den)

def ratSum : List ℚ → ℚ
  | [] => 0
  | q :: qs => qadd q (ratSum qs)

/-- Modelled from the spec: `summarize_transactions` lives in
`common/pdf_utils.py`, which is not under src/. §6 describes it as "given the
final transaction list, returns an aggregate object (total debit, total
credit, count, or equivalent)". -/
def summarize_transactions (ts : List Txn) : Summary :=
  ⟨ratSum (ts.map (·.debit)), ratSum (ts.map (·.credit)), ts.length⟩

/-- Modelled from the spec: `normalize_transactions` lives in
`common/pdf_utils.py`, which is not under src/. The spec treats everything
outside the line engine as mechanical and §6 presents the produced
transactions as the engine's ordered sequence, so it is modelled as the
identity passthrough. -/
def normalize_transactions (ts : List Txn) (_bank _card : String) : List Txn := ts

/-- Modelled from the spec: `normalize_date(s, fmt)` from `common/pdf_utils.py`
(not under src/) parses `s` with the `strptime` format `fmt` and renders the
date in ISO 8601, `strptime` supplying its default year 1900 when the format
has no year directive. Behavior on unparseable input is not specified; it is
modelled as returning the input unchanged (no claim exercises that corner). -/
def normalize_date_dm (s : String) : String :=
  match parseDayTok s.data with
  | none => s
  | some (d, r1) =>
    match skipWs1 r1 with
    | none => s
    | some r2 =>
      match parseMonthAbbrevTok r2 with
      | none => s
      | some (m, r3) =>
        if r3.isEmpty then
          match mkValidDate 1900 m d with
          | some dt => isoOfDate dt
          | none => s
        else s

/-- Modelled from the spec: `normalize_date(s, "%d/%m/%Y")`, see
`normalize_date_dm`. -/
def normalize_date_dmy (s : String) : String :=
  match strptimeDMY_slash s with
  | some dt => isoOfDate dt
  | none => s

/-- `int(s[:4])` on an ISO date string (yields 0 on non-digit input, a corner
`parse_emiratesislamic` only reaches with ISO strings, where Python's `int`
succeeds). -/
def year4 (s : String) : Nat :=
  let cs := s.data.take 4
  if cs.length = 4 && cs.all isDigitCh then digitsToNat cs else 0

/-! ## `src/parsers/emiratesislamic.py` -/

namespace EmiratesIslamic

def BANK_NAME : String := "Emirates Islamic"
def CARD_TYPE : String := "credit"

def SKIP_KEYWORDS : List String :=
  ["opening balance", "primary card no", "rewards summary", "cashback",
   "card limit", "minimum payment due", "payment due date",
   "profit/other charges", "current balance", "profit reversal",
   "finance charges"]

/-- `clean_amount` (emiratesislamic.py): strips commas and `"CR"`, then
`float` inside try/except, defaulting to 0. -/
def clean_amount (val : String) : ℚ :=
  if val = "" then 0
  else
    let v := pyStrip (pyReplace (pyReplace val "," "") "CR" "")
    match pyFloat v with
    | some q => q
    | none => 0

/-- `_strip_ordinal`. -/
def strip_ordinal (s : String) : String :=
  pyStrip (String.mk (stripOrdinalAux s.data.length s.data))

/-- `_parse_full_date`: try `"%d %b %Y"` then `"%d %B %Y"` on the
ordinal-stripped string; return the ISO rendering. -/
def parse_full_date (s : String) : Option String :=
  let c := strip_ordinal s
  match strptimeDMonY true c with
  | some d => some (isoOfDate d)
  | none =>
    match strptimeDMonY false c with
    | some d => some (isoOfDate d)
    | none => none

/-- `_normalize_range_token`, including the Arabic renderings map (note the
`"من "` key, reachable when a trailing colon guards an inner space). -/
def normalize_range_token (raw : String) : Option String :=
  let token := pyLower (pyStripChars ":" (pyStrip raw))
  if token = "" then none
  else if token = "from" || token = "to" then some token
  else if token = "من" then some "from"
  else if token = "من " then some "from"
  else if token = "الى" then some "to"
  else if token = "إلى" then some "to"
  else if token = "ىلإ" then some "to"
  else none

/-- Capture of `(\d{2}\s+[A-Z]{3})` under `re.IGNORECASE`. -/
def dateTok : RxM String :=
  rxBind (rxCount isDigitCh 2) fun d =>
  rxBind (rxPlusGreedy isSpaceCh) fun sp =>
  rxBind (rxCount isAlphaCh 3) fun m =>
  rxPure (String.mk (d ++ sp ++ m))

/-- Capture of `([\d,]+\.\d{2})`. -/
def amtTok : RxM String :=
  rxBind (rxPlusGreedy isDigitComma) fun a =>
  rxBind (rxCh (· = '.')) fun dot =>
  rxBind (rxCount isDigitCh 2) fun b =>
  rxPure (String.mk (a ++ [dot] ++ b))

/-- `LINE_REGEX.match`:
`^(\d{2}\s+[A-Z]{3})\s+(\d{2}\s+[A-Z]{3})\s+(.+?)\s+([\d,]+\.\d{2})(CR)?$`
with `re.IGNORECASE`; returns the five captures. -/
def lineMatch (s : String) : Option (String × String × String × String × Option String) :=
  rxRun (
    rxBind dateTok fun g1 =>
    rxBind (rxPlusGreedy isSpaceCh) fun _ =>
    rxBind dateTok fun g2 =>
    rxBind (rxPlusGreedy isSpaceCh) fun _ =>
    rxBind (rxPlusLazy (· ≠ '\n')) fun desc =>
    rxBind (rxPlusGreedy isSpaceCh) fun _ =>
    rxBind amtTok fun amt =>
    rxBind (rxOpt (rxStrCI "CR".data)) fun cr =>
    rxBind rxEnd fun _ =>
    rxPure (g1, g2, String.mk desc, amt, cr.map String.mk)) s

/-- Capture of `(\d{1,2}(?:st|nd|rd|th)?\s+[A-Za-z]{3,9}\s+\d{4})`. -/
def dateStrTok : RxM String :=
  rxBind (rxRange isDigitCh 1 2) fun d =>
  rxBind (rxOpt (rxAlt (rxStrCI "st".data) (rxAlt (rxStrCI "nd".data)
    (rxAlt (rxStrCI "rd".data) (rxStrCI "th".data))))) fun suf =>
  rxBind (rxPlusGreedy isSpaceCh) fun sp1 =>
  rxBind (rxRange isAlphaCh 3 9) fun mon =>
  rxBind (rxPlusGreedy isSpaceCh) fun sp2 =>
  rxBind (rxCount isDigitCh 4) fun y =>
  rxPure (String.mk (d ++ suf.getD [] ++ sp1 ++ mon ++ sp2 ++ y))

/-- `FROM_TO_REGEX.match`:
`^\s*(From|To)\s*:?\s*(\d{1,2}(?:st|nd|rd|th)?\s+[A-Za-z]{3,9}\s+\d{4})\s*$`
with `re.IGNORECASE`; returns the two captures. -/
def fromToMatch (s : String) : Option (String × String) :=
  rxRun (
    rxBind (rxStarGreedy isSpaceCh) fun _ =>
    rxBind (rxAlt (rxStrCI "From".data) (rxStrCI "To".data)) fun which =>
    rxBind (rxStarGreedy isSpaceCh) fun _ =>
    rxBind (rxOpt (rxCh (· = ':'))) fun _ =>
    rxBind (rxStarGreedy isSpaceCh) fun _ =>
    rxBind dateStrTok fun ds =>
    rxBind (rxStarGreedy isSpaceCh) fun _ =>
    rxBind rxEnd fun _ =>
    rxPure (String.mk which, ds)) s

structure EmState where
  statement_from : Option String
  statement_to : Option String
  pending_range : Option String
  transactions : List Txn
deriving DecidableEq, Repr

def initState : EmState := ⟨none, none, none, []⟩

/-- The year-resolution block (emiratesislamic.py lines 146–159), entered only
when both boundaries are truthy: re-year the day+month date to the to-year,
rolling back to the from-year when the statement crosses a calendar-year
boundary (`statement_to.month < 6 and txn.month > 6`).  The fallthrough arms
model inputs on which Python's `strptime`/`replace` would raise; they are
unreachable for the ISO strings this parser produces. -/
def yearFix (sf stTo : Option String) (txn_date : String) : String :=
  match sf, stTo with
  | some f, some t =>
    let from_year := year4 f
    let to_year := year4 t
    match strptimeISO txn_date, strptimeISO t with
    | some d, some tD =>
      let txn : PyDate := ⟨to_year, d.month, d.day⟩
      if tD.month < 6 && txn.month > 6 then isoOfDate ⟨from_year, txn.month, txn.day⟩
      else isoOfDate txn
    | _, _ => txn_date
  | _, _ => txn_date

/-- The boilerplate test: `any(k in low for k in SKIP_KEYWORDS)`. -/
def isSkip (raw : String) : Bool :=
  SKIP_KEYWORDS.any (fun k => strContains (pyLower raw) k)

/-- The transaction-line tail of the loop body: `LINE_REGEX.match`, amount
cleaning, credit/debit split, date normalization and year fix, append. -/
def txnLine (st : EmState) (raw : String) : EmState :=
  match lineMatch raw with
  | none => st
  | some (_, txn_date_raw, desc, amt_raw, cr) =>
    let amt_val := clean_amount amt_raw
    let isCredit := cr.isSome || strContains (pyLower desc) "payment received"
    let debit := if isCredit then 0 else amt_val
    let credit := if isCredit then amt_val else 0
    let txn_date0 := normalize_date_dm (pyStrip txn_date_raw)
    let txn_date := yearFix st.statement_from st.statement_to txn_date0
    { st with transactions := st.transactions ++
        [⟨txn_date, pyStrip desc, debit, credit, amt_val, none, none, none, none,
          BANK_NAME, CARD_TYPE⟩] }

/-- One iteration of the per-line loop, for a stripped non-empty `raw`. -/
def lineStep (st : EmState) (raw : String) : EmState :=
  if isSkip raw then st
  else
    match fromToMatch raw with
    | some (which, date_str) =>
      let st1 :=
        match parse_full_date date_str with
        | some parsed =>
          if pyLower which = "from" then { st with statement_from := some parsed }
          else { st with statement_to := some parsed }
        | none => st
      { st1 with pending_range := none }
    | none =>
      match normalize_range_token raw with
      | some tok =>
        if tok = "from" && st.statement_from.isSome then st
        else if tok = "to" && st.statement_to.isSome then st
        else { st with pending_range := some tok }
      | none =>
        match st.pending_range with
        | some p =>
          match parse_full_date raw with
          | some parsed =>
            if p = "from" then
              { st with statement_from := some parsed, pending_range := none }
            else
              { st with statement_to := some parsed, pending_range := none }
          | none => txnLine st raw
        | none => txnLine st raw

/-- Per-page loop: strip each line, skip empties, run the line body. -/
def page (st : EmState) (pl : List String) : EmState :=
  ((pl.map pyStrip).filter (fun l => l ≠ "")).foldl lineStep st

/-- `parse_emiratesislamic`, taking the outcome of `open_pdf_safe` (a failure
dict or the pages' extracted text, each page given as its `splitlines`). -/
def parse (pdf : Except ErrDict (List (List String))) : Except ErrDict ParseOk :=
  match pdf with
  | .error e => .error e
  | .ok pages =>
    let st := pages.foldl page initState
    let normalized := normalize_transactions st.transactions BANK_NAME CARD_TYPE
    .ok ⟨BANK_NAME, CARD_TYPE, summarize_transactions normalized, normalized,
         st.statement_from, st.statement_to⟩

end EmiratesIslamic

/-! ## `src/parsers/rakbank.py` -/

namespace Rakbank

def BANK_NAME : String := "RAKBANK"
def CARD_TYPE : String := "credit"

def SKIP_KEYWORDS : List String :=
  ["opening balance", "closing balance", "available credit",
   "minimum payment due", "payment due date", "credit limit"]

def DROP_HINTS : List String :=
  ["your credit card statement", "statement period", "product name",
   "card number", "page["]

/-- `clean_amount` (rakbank.py): strips commas, `"CR"`, `"Cr"`, then calls
`float` with **no** try/except: `none` models the `ValueError` Python raises
on an unparseable remainder. -/
def clean_amount (val : String) : Option ℚ :=
  if val = "" then some 0
  else
    pyFloat (pyStrip (pyReplace (pyReplace (pyReplace val "," "") "CR" "") "Cr" ""))

/-- Capture of `(\d{2}/\d{2}/\d{4})`. -/
def dateSlashTok : RxM String :=
  rxBind (rxCount isDigitCh 2) fun a =>
  rxBind (rxCh (· = '/')) fun s1 =>
  rxBind (rxCount isDigitCh 2) fun b =>
  rxBind (rxCh (· = '/')) fun s2 =>
  rxBind (rxCount isDigitCh 4) fun c =>
  rxPure (String.mk (a ++ [s1] ++ b ++ [s2] ++ c))

/-- Capture of `([\d,]+.\d{2})` — the dot is **unescaped** in the source, so
it matches any character. -/
def amtTokAnyDot : RxM String :=
  rxBind (rxPlusGreedy isDigitComma) fun a =>
  rxBind (rxCh (· ≠ '\n')) fun c =>
  rxBind (rxCount isDigitCh 2) fun b =>
  rxPure (String.mk (a ++ [c] ++ b))

/-- Capture of `([\d,]+\.\d{2})` (escaped dot, FX pattern). -/
def amtTokDot : RxM String :=
  rxBind (rxPlusGreedy isDigitComma) fun a =>
  rxBind (rxCh (· = '.')) fun dot =>
  rxBind (rxCount isDigitCh 2) fun b =>
  rxPure (String.mk (a ++ [dot] ++ b))

/-- `(?:\s*((?:CR|Cr)))?` under `re.IGNORECASE`: optional whitespace-prefixed
`CR` marker, capture of the marker text only. -/
def crOptTok : RxM (Option String) :=
  rxOpt (rxBind (rxStarGreedy isSpaceCh) fun _ =>
    rxBind (rxStrCI "CR".data) fun t => rxPure (String.mk t))

/-- `RAKBANK_LINE_REGEX.match`: the AED transaction shape
`^(\d{2}/\d{2}/\d{4})\s+(.+?)\s+AED\s+([\d,]+.\d{2})(?:\s*((?:CR|Cr)))?\s+-\s+([\d,]+.\d{2})(?:\s*((?:CR|Cr)))?\s*$`
with `re.IGNORECASE`; returns the six captures. -/
def lineMatch (s : String) :
    Option (String × String × String × Option String × String × Option String) :=
  rxRun (
    rxBind dateSlashTok fun date =>
    rxBind (rxPlusGreedy isSpaceCh) fun _ =>
    rxBind (rxPlusLazy (· ≠ '\n')) fun desc =>
    rxBind (rxPlusGreedy isSpaceCh) fun _ =>
    rxBind (rxStrCI "AED".data) fun _ =>
    rxBind (rxPlusGreedy isSpaceCh) fun _ =>
    rxBind amtTokAnyDot fun amt =>
    rxBind crOptTok fun amtCr =>
    rxBind (rxPlusGreedy isSpaceCh) fun _ =>
    rxBind (rxCh (· = '-')) fun _ =>
    rxBind (rxPlusGreedy isSpaceCh) fun _ =>
    rxBind amtTokAnyDot fun bal =>
    rxBind crOptTok fun balCr =>
    rxBind (rxStarGreedy isSpaceCh) fun _ =>
    rxBind rxEnd fun _ =>
    rxPure (date, String.mk desc, amt, amtCr, bal, balCr)) s

/-- `RAKBANK_FX_REGEX.match`:
`^(\d{2}/\d{2}/\d{4})\s+([A-Z]{3})\s+([\d,]+\.\d{2})\s+([\d,]+\.\d{2})\s+([\d,]+\.\d{2})(?:\s*(CR|Cr))?$`
with `re.IGNORECASE`; returns the six captures. -/
def fxMatch (s : String) :
    Option (String × String × String × String × String × Option String) :=
  rxRun (
    rxBind dateSlashTok fun date =>
    rxBind (rxPlusGreedy isSpaceCh) fun _ =>
    rxBind (rxCount isAlphaCh 3) fun ccy =>
    rxBind (rxPlusGreedy isSpaceCh) fun _ =>
    rxBind amtTokDot fun fxAmt =>
    rxBind (rxPlusGreedy isSpaceCh) fun _ =>
    rxBind amtTokDot fun fxRate =>
    rxBind (rxPlusGreedy isSpaceCh) fun _ =>
    rxBind amtTokDot fun aedAmt =>
    rxBind crOptTok fun cr =>
    rxBind rxEnd fun _ =>
    rxPure (date, String.mk ccy, fxAmt, fxRate, aedAmt, cr)) s

/-- Capture of `(\d{1,2}/\d{1,2}/\d{4})`. -/
def stmtDateTok : RxM String :=
  rxBind (rxRange isDigitCh 1 2) fun a =>
  rxBind (rxCh (· = '/')) fun s1 =>
  rxBind (rxRange isDigitCh 1 2) fun b =>
  rxBind (rxCh (· = '/')) fun s2 =>
  rxBind (rxCount isDigitCh 4) fun c =>
  rxPure (String.mk (a ++ [s1] ++ b ++ [s2] ++ c))

/-- `STATEMENT_PERIOD_RE.search`:
`(\d{1,2}/\d{1,2}/\d{4})\s*(?:to|TO|To)\s*(\d{1,2}/\d{1,2}/\d{4})`, no flags
(so `tO` is not accepted); returns the two captures of the leftmost match. -/
def stmtPeriodSearch (s : String) : Option (String × String) :=
  rxFind (
    rxBind stmtDateTok fun fd =>
    rxBind (rxStarGreedy isSpaceCh) fun _ =>
    rxBind (rxAlt (rxStr "to".data) (rxAlt (rxStr "TO".data) (rxStr "To".data))) fun _ =>
    rxBind (rxStarGreedy isSpaceCh) fun _ =>
    rxBind stmtDateTok fun td =>
    rxPure (fd, td)) s

structure RakState where
  statement_from : Option String
  statement_to : Option String
  buffer_desc : List String
  transactions : List Txn
deriving DecidableEq, Repr

/-- `" ".join(fd.replace(" ", ""))`-style space removal (the captures contain
no spaces, but the call is kept faithfully). -/
def removeSpaces (s : String) : String := pyReplace s " " ""

/-- The AED-transaction branch of the loop body. `none` models the
`ValueError` escaping from `clean_amount`. -/
def emitAED (st : RakState)
    (g : String × String × String × Option String × String × Option String) :
    Option RakState :=
  let (date, desc, amt_raw, amt_cr, balance_raw, bal_cr) := g
  let buf :=
    if DROP_HINTS.any (fun h => strContains (pyLower (joinSpace st.buffer_desc)) h)
    then [] else st.buffer_desc
  let full_desc := pyStrip (joinSpace (buf ++ [pyStrip desc]))
  match clean_amount amt_raw, clean_amount balance_raw with
  | some amt_val, some balance_val =>
    let desc_low := pyLower full_desc
    let has_cr_flag := amt_cr.isSome || bal_cr.isSome
    let isCredit := has_cr_flag || (strContains desc_low "payment" || strContains desc_low "refund")
    let debit := if isCredit then 0 else amt_val
    let credit := if isCredit then amt_val else 0
    some { st with
      buffer_desc := [],
      transactions := st.transactions ++
        [⟨normalize_date_dmy date, full_desc, debit, credit, amt_val,
          some balance_val, none, none, none, BANK_NAME, CARD_TYPE⟩] }
  | _, _ => none

/-- The FX-transaction branch of the loop body. -/
def emitFX (st : RakState)
    (g : String × String × String × String × String × Option String) :
    Option RakState :=
  let (date, ccy, fx_amt, fx_rate, aed_amt, cr_flag) := g
  let buf :=
    if DROP_HINTS.any (fun h => strContains (pyLower (joinSpace st.buffer_desc)) h)
    then [] else st.buffer_desc
  let full_desc := pyStrip (joinSpace buf)
  match clean_amount fx_amt, clean_amount fx_rate, clean_amount aed_amt with
  | some fx_amt_val, some fx_rate_val, some aed_val =>
    let desc_low := pyLower full_desc
    let isCredit := cr_flag.isSome || (strContains desc_low "payment" || strContains desc_low "refund")
    let debit := if isCredit then 0 else aed_val
    let credit := if isCredit then aed_val else 0
    some { st with
      buffer_desc := [],
      transactions := st.transactions ++
        [⟨normalize_date_dmy date, full_desc, debit, credit, aed_val,
          none, some ccy, some fx_amt_val, some fx_rate_val, BANK_NAME, CARD_TYPE⟩] }
  | _, _, _ => none

/-- The boilerplate test: `any(k in low for k in SKIP_KEYWORDS)`. -/
def isSkip (raw : String) : Bool :=
  SKIP_KEYWORDS.any (fun k => strContains (pyLower raw) k)

/-- One iteration of the per-line loop, for a stripped non-empty `raw`.
`none` models an uncaught `ValueError` from `clean_amount`. -/
def lineStep (st : RakState) (raw : String) : Option RakState :=
  let low := pyLower raw
  if isSkip raw then some st
  else if strContains low "statement period" then
    some (match stmtPeriodSearch raw with
      | some (fd, td) =>
        { st with
          statement_from := some (normalize_date_dmy (removeSpaces fd)),
          statement_to := some (normalize_date_dmy (removeSpaces td)) }
      | none => st)
  else
    match lineMatch raw with
    | some g => emitAED st g
    | none =>
      match fxMatch raw with
      | some g => emitFX st g
      | none => some { st with buffer_desc := st.buffer_desc ++ [raw] }

/-- A line that reaches the final `buffer_desc.append(raw)` arm: not
boilerplate, not a statement-period line, and matching neither transaction
shape. -/
def unclassified (raw : String) : Bool :=
  !isSkip raw && !strContains (pyLower raw) "statement period" &&
    (lineMatch raw).isNone && (fxMatch raw).isNone

def runLines : RakState → List String → Option RakState
  | st, [] => some st
  | st, l :: ls =>
    match lineStep st l with
    | none => none
    | some st' => runLines st' ls

/-- Per-page loop: strip lines, drop empties, **re-initialize the description
buffer**, then run the line loop. -/
def page (st : RakState) (pl : List String) : Option RakState :=
  runLines { st with buffer_desc := [] } ((pl.map pyStrip).filter (fun l => l ≠ ""))

def runPages : RakState → List (List String) → Option RakState
  | st, [] => some st
  | st, p :: ps =>
    match page st p with
    | none => none
    | some st' => runPages st' ps

def initState : RakState := ⟨none, none, [], []⟩

/-- `parse_rakbank`, taking the outcome of `open_pdf_safe`. The outer `none`
models an uncaught `ValueError` escaping the call. -/
def parse (pdf : Except ErrDict (List (List String))) : Option (Except ErrDict ParseOk) :=
  match pdf with
  | .error e => some (.error e)
  | .ok pages =>
    match runPages initState pages with
    | none => none
    | some st =>
      let normalized := normalize_transactions st.transactions BANK_NAME CARD_TYPE
      some (.ok ⟨BANK_NAME, CARD_TYPE, summarize_transactions normalized, normalized,
                 st.statement_from, st.statement_to⟩)

end Rakbank

instance {ε α : Type} [DecidableEq ε] [DecidableEq α] : DecidableEq (Except ε α) := fun a b =>
  match a, b with
  | .error x, .error y =>
    if h : x = y then .isTrue (by rw [h]) else .isFalse (by simp [h])
  | .error _, .ok _ => .isFalse (by simp)
  | .ok _, .error _ => .isFalse (by simp)
  | .ok x, .ok y =>
    if h : x = y then .isTrue (by rw [h]) else .isFalse (by simp [h])

/-! ## The debit/credit shape of an emitted transaction -/

/-- One of debit/credit carries the amount and the other is exactly 0. When
`amount ≠ 0` this is the spec's "exactly one is nonzero and equals amount";
when `amount = 0` both fields are 0. -/
def balancedTxn (t : Txn) : Prop :=
  (t.debit = t.amount ∧ t.credit = 0) ∨ (t.credit = t.amount ∧ t.debit = 0)

instance : DecidablePred balancedTxn := fun t => by
  unfold balancedTxn; infer_instance

/-! ## Claim theorems -/

/-- Claim C5. When the document source returns a failure value (a dict with an
`"error"` key), both parsers return that failure value exactly: no lines are
processed, no transactions are produced, no summary is computed.  (For
`parse_rakbank` the outer `some` merely says no exception is raised.) -/
theorem C5_error_passthrough (e : ErrDict) :
    Rakbank.parse (Except.error e) = some (Except.error e) ∧
    EmiratesIslamic.parse (Except.error e) = Except.error e :=
  ⟨rfl, rfl⟩

/-- Claim C5 witness. The passthrough at a concrete failure value. -/
theorem C5_error_passthrough_witness :
    Rakbank.parse (Except.error ⟨"wrong password"⟩) = some (Except.error ⟨"wrong password"⟩) ∧
    EmiratesIslamic.parse (Except.error ⟨"wrong password"⟩) = Except.error ⟨"wrong password"⟩ :=
  C5_error_passthrough ⟨"wrong password"⟩

/-- Claim C2. The claim holds for emiratesislamic.py's `clean_amount`
(`"1,234.56CR"` → 1234.56, empty and unparseable input → 0), but rakbank.py's
`clean_amount` calls `float` with no try/except: on unparseable input it
raises `ValueError` (modelled as `none`) instead of returning 0, and the
exception is reachable from a full parse because the amount pattern's
unescaped dot lets a non-numeric character into the captured token. -/
theorem C2_clean_amount :
    EmiratesIslamic.clean_amount "1,234.56CR" = mkRat 123456 100 ∧
    EmiratesIslamic.clean_amount "" = 0 ∧
    EmiratesIslamic.clean_amount "abc" = 0 ∧
    Rakbank.clean_amount "1,234.56CR" = some (mkRat 123456 100) ∧
    Rakbank.clean_amount "" = some 0 ∧
    Rakbank.clean_amount "abc" = none ∧
    Rakbank.parse (Except.ok [["01/01/2025 X AED 1x23 - 1.00"]]) = none := by
  refine ⟨by decide, by decide, by decide, by decide, by decide, by decide, by decide⟩

/-- Claim C6. A line whose lowercase form contains a configured boilerplate
phrase is discarded before any other processing, in both parsers: the loop
state (statement period, description buffer, pending marker, transactions) is
returned entirely unchanged, so the line never becomes a transaction, never
contributes to a description, and never clears the buffer or pending marker. -/
theorem C6_boilerplate_discarded :
    (∀ (st : Rakbank.RakState) (raw : String),
      Rakbank.isSkip raw = true → Rakbank.lineStep st raw = some st) ∧
    (∀ (st : EmiratesIslamic.EmState) (raw : String),
      EmiratesIslamic.isSkip raw = true → EmiratesIslamic.lineStep st raw = st) := by
  constructor
  · intro st raw h
    unfold Rakbank.lineStep
    simp [h]
  · intro st raw h
    unfold EmiratesIslamic.lineStep
    simp [h]

/-- Claim C6 witness. A "Minimum Payment Due" line is boilerplate for both
parsers and leaves a concrete mid-parse state (non-empty buffer, pending
marker) untouched. -/
theorem C6_boilerplate_discarded_witness :
    Rakbank.isSkip "Minimum Payment Due: AED 250.00" = true ∧
    Rakbank.lineStep ⟨none, none, ["PENDING TEXT"], []⟩ "Minimum Payment Due: AED 250.00" =
      some ⟨none, none, ["PENDING TEXT"], []⟩ ∧
    EmiratesIslamic.isSkip "Minimum Payment Due: AED 250.00" = true ∧
    EmiratesIslamic.lineStep ⟨none, none, some "to", []⟩ "Minimum Payment Due: AED 250.00" =
      ⟨none, none, some "to", []⟩ :=
  ⟨by decide, C6_boilerplate_discarded.1 _ _ (by decide), by decide,
   C6_boilerplate_discarded.2 _ _ (by decide)⟩

/-- Claim C4. With both statement-period boundaries resolved, a day+month
transaction date gets the to-boundary's year, except that when the
to-boundary's month is before June and the transaction's month is after June
the from-boundary's year is used instead; concretely, with
`from_date = 2024-12-15` and `to_date = 2025-01-14` a transaction dated
"14 AUG" resolves to `2024-08-14` end to end. -/
theorem C4_year_resolution :
    (∀ (ft tt xt : String) (fD tD xD : PyDate),
      strptimeISO ft = some fD → strptimeISO tt = some tD → strptimeISO xt = some xD →
      year4 ft = fD.year → year4 tt = tD.year →
      EmiratesIslamic.yearFix (some ft) (some tt) xt =
        (if tD.month < 6 && xD.month > 6
         then isoOfDate ⟨fD.year, xD.month, xD.day⟩
         else isoOfDate ⟨tD.year, xD.month, xD.day⟩)) ∧
    EmiratesIslamic.parse (Except.ok [["From: 15th Dec 2024", "To: 14th Jan 2025",
        "14 AUG 14 AUG STORE 100.00"]]) =
      Except.ok ⟨"Emirates Islamic", "credit", ⟨100, 0, 1⟩,
        [⟨"2024-08-14", "STORE", 100, 0, 100, none, none, none, none,
          "Emirates Islamic", "credit"⟩],
        some "2024-12-15", some "2025-01-14"⟩ := by
  constructor
  · intro ft tt xt fD tD xD hf ht hx hy4f hy4t
    simp only [EmiratesIslamic.yearFix, hx, ht, hy4f, hy4t]
  · decide

/-- Claim C4 witness. The general clause applied at the claim's concrete period
and transaction date. -/
theorem C4_year_resolution_witness :
    EmiratesIslamic.yearFix (some "2024-12-15") (some "2025-01-14") "1900-08-14" =
      "2024-08-14" := by
  have h := C4_year_resolution.1 "2024-12-15" "2025-01-14" "1900-08-14"
    ⟨2024, 12, 15⟩ ⟨2025, 1, 14⟩ ⟨1900, 8, 14⟩
    (by decide) (by decide) (by decide) (by decide) (by decide)
  rw [h]
  decide

/-- Claim C3 counterexample. Both parsers *do* overwrite an already-resolved
boundary. In `parse_emiratesislamic`, a first labeled "To:" line resolves
`to_date = 2025-01-14`, and a later "To:" line with a different date
overwrites it with `2025-01-15`. In `parse_rakbank`, a second
"Statement Period" line overwrites both boundaries set by the first. -/
theorem C3_counterexample :
    EmiratesIslamic.parse (Except.ok [["To: 14th Jan 2025"]]) =
      Except.ok ⟨"Emirates Islamic", "credit", ⟨0, 0, 0⟩, [], none, some "2025-01-14"⟩ ∧
    EmiratesIslamic.parse (Except.ok [["To: 14th Jan 2025", "To: 15th Jan 2025"]]) =
      Except.ok ⟨"Emirates Islamic", "credit", ⟨0, 0, 0⟩, [], none, some "2025-01-15"⟩ ∧
    ("2025-01-15" : String) ≠ "2025-01-14" ∧
    Rakbank.parse (Except.ok [["Statement Period: 15/08/2025 TO 14/09/2025"]]) =
      some (Except.ok ⟨"RAKBANK", "credit", ⟨0, 0, 0⟩, [],
        some "2025-08-15", some "2025-09-14"⟩) ∧
    Rakbank.parse (Except.ok [["Statement Period: 15/08/2025 TO 14/09/2025",
        "Statement Period: 01/01/2024 TO 31/01/2024"]]) =
      some (Except.ok ⟨"RAKBANK", "credit", ⟨0, 0, 0⟩, [],
        some "2024-01-01", some "2024-01-31"⟩) ∧
    ("2024-01-01" : String) ≠ "2025-08-15" := by
  refine ⟨by decide, by decide, by decide, by decide, by decide, by decide⟩

/-- Claim C3 as amended. First-wins holds only on the bare-marker path of
`parse_emiratesislamic`: a line that normalizes to the marker token of an
already-resolved boundary is ignored outright (no state change, no pending
marker). Labeled "From:/To: date" lines (and rakbank's "Statement Period"
lines) overwrite previously resolved boundaries, as the counterexample
shows. -/
theorem C3_first_wins_bare_marker :
    ∀ (st : EmiratesIslamic.EmState) (raw : String),
      EmiratesIslamic.isSkip raw = false →
      EmiratesIslamic.fromToMatch raw = none →
      ((EmiratesIslamic.normalize_range_token raw = some "from" ∧
          st.statement_from.isSome = true) ∨
       (EmiratesIslamic.normalize_range_token raw = some "to" ∧
          st.statement_to.isSome = true)) →
      EmiratesIslamic.lineStep st raw = st := by
  intro st raw hskip hft hcase
  unfold EmiratesIslamic.lineStep
  rcases hcase with ⟨htok, hsome⟩ | ⟨htok, hsome⟩ <;>
    simp [hskip, hft, htok, hsome]

/-- Claim C3 witness. A bare "To" line is ignored when `to_date` is already
resolved. -/
theorem C3_first_wins_bare_marker_witness :
    EmiratesIslamic.lineStep ⟨none, some "2025-01-14", none, []⟩ "To" =
      ⟨none, some "2025-01-14", none, []⟩ :=
  C3_first_wins_bare_marker ⟨none, some "2025-01-14", none, []⟩ "To"
    (by decide) (by decide) (Or.inr ⟨by decide, by decide⟩)

/-- Helper: the transaction-line tail never touches the period tracker or the
pending marker. -/
theorem EmiratesIslamic.txnLine_tracker (st : EmiratesIslamic.EmState) (raw : String) :
    (EmiratesIslamic.txnLine st raw).pending_range = st.pending_range ∧
    (EmiratesIslamic.txnLine st raw).statement_from = st.statement_from ∧
    (EmiratesIslamic.txnLine st raw).statement_to = st.statement_to := by
  unfold EmiratesIslamic.txnLine
  split
  · exact ⟨rfl, rfl, rfl⟩
  · exact ⟨rfl, rfl, rfl⟩

/-- Claim C8 counterexample. With a pending range marker set, neither a
boilerplate line nor a recognized transaction line clears it: the boilerplate
line is skipped with the marker retained, and a transaction line is emitted
with the marker retained. (The claim says both transitions abandon the
marker.) -/
theorem C8_counterexample :
    EmiratesIslamic.isSkip "Minimum Payment Due AED 100" = true ∧
    (EmiratesIslamic.lineStep ⟨none, none, some "to", []⟩
        "Minimum Payment Due AED 100").pending_range = some "to" ∧
    (EmiratesIslamic.lineMatch "14 AUG 14 AUG STORE 100.00").isSome = true ∧
    (EmiratesIslamic.lineStep ⟨none, none, some "to", []⟩
        "14 AUG 14 AUG STORE 100.00").pending_range = some "to" ∧
    (EmiratesIslamic.lineStep ⟨none, none, some "to", []⟩
        "14 AUG 14 AUG STORE 100.00").transactions ≠ [] := by
  refine ⟨by decide, by decide, by decide, by decide, by decide⟩

/-- Claim C8 as amended. While `AWAITING_RANGE_DATE` (a pending marker is set),
a boilerplate line leaves the whole state — marker included — unchanged, and
any line that is not a labeled From/To line, not a bare marker token, and not
parseable as a bare full date (in particular every recognized transaction
line) leaves the pending marker in place. The marker is cleared only by a
resolved date or a labeled From/To line, or superseded by a new marker
token. -/
theorem C8_pending_survives :
    ∀ (st : EmiratesIslamic.EmState) (raw : String),
      (EmiratesIslamic.isSkip raw = true → EmiratesIslamic.lineStep st raw = st) ∧
      (EmiratesIslamic.isSkip raw = false →
       EmiratesIslamic.fromToMatch raw = none →
       EmiratesIslamic.normalize_range_token raw = none →
       EmiratesIslamic.parse_full_date raw = none →
       (EmiratesIslamic.lineStep st raw).pending_range = st.pending_range) := by
  intro st raw
  constructor
  · intro h
    unfold EmiratesIslamic.lineStep
    simp [h]
  · intro hskip hft htok hdate
    unfold EmiratesIslamic.lineStep
    simp only [hskip, hft, htok, Bool.false_eq_true, if_false]
    cases hp : st.pending_range with
    | none => exact (EmiratesIslamic.txnLine_tracker st raw).1.trans hp
    | some p =>
      simp only [hdate]
      exact (EmiratesIslamic.txnLine_tracker st raw).1.trans hp

/-- Claim C8 witness. A transaction line processed under a pending "to" marker:
the marker survives. -/
theorem C8_pending_survives_witness :
    (EmiratesIslamic.lineStep ⟨none, none, some "to", []⟩
        "14 AUG 14 AUG STORE 100.00").pending_range = some "to" :=
  (C8_pending_survives ⟨none, none, some "to", []⟩ "14 AUG 14 AUG STORE 100.00").2
    (by decide) (by decide) (by decide) (by decide)

/-- Claim C9. While a pending marker is set, each subsequent non-boilerplate
line that is neither a labeled From/To line nor a bare marker token is tried
as a bare full date and, when it parses, resolves the pending boundary and
clears the marker; a line that does not parse as a date leaves the marker in
place (the pending marker survives unparseable lines, as in the concrete
run). Concretely, a lone "To" followed — after an intervening boilerplate
line and an unparseable free-text line — by "14th Jan 2025" yields
`to_date = 2025-01-14`. -/
theorem C9_marker_recovery :
    (∀ (st : EmiratesIslamic.EmState) (raw : String) (d : String),
      EmiratesIslamic.isSkip raw = false →
      EmiratesIslamic.fromToMatch raw = none →
      EmiratesIslamic.normalize_range_token raw = none →
      EmiratesIslamic.parse_full_date raw = some d →
      (st.pending_range = some "from" →
        EmiratesIslamic.lineStep st raw =
          { st with statement_from := some d, pending_range := none }) ∧
      (st.pending_range = some "to" →
        EmiratesIslamic.lineStep st raw =
          { st with statement_to := some d, pending_range := none })) ∧
    EmiratesIslamic.parse (Except.ok [["To", "Minimum Payment Due 100",
        "SOME RANDOM TEXT", "14th Jan 2025"]]) =
      Except.ok ⟨"Emirates Islamic", "credit", ⟨0, 0, 0⟩, [], none, some "2025-01-14"⟩ := by
  constructor
  · intro st raw d hskip hft htok hdate
    constructor
    · intro hp
      unfold EmiratesIslamic.lineStep
      simp [hskip, hft, htok, hp, hdate]
    · intro hp
      unfold EmiratesIslamic.lineStep
      simp [hskip, hft, htok, hp, hdate]
  · decide

/-- Claim C9 witness. The resolution step applied at the concrete pending state
and the concrete date line of the claim. -/
theorem C9_marker_recovery_witness :
    EmiratesIslamic.lineStep ⟨none, none, some "to", []⟩ "14th Jan 2025" =
      ⟨none, some "2025-01-14", none, []⟩ :=
  ((C9_marker_recovery.1 ⟨none, none, some "to", []⟩ "14th Jan 2025" "2025-01-14"
    (by decide) (by decide) (by decide) (by decide)).2) (by decide)

/-- Claim C7 counterexample. `parse_emiratesislamic` has no description buffer:
the two free-text lines preceding a matching transaction line are silently
dropped, and the transaction's description is only the matched line's own
description — not the claimed concatenation. -/
theorem C7_counterexample :
    EmiratesIslamic.parse (Except.ok [["PURCHASE AT", "SOME STORE DUBAI ARE",
        "14 AUG 14 AUG RTA-ETISALAT 100.00"]]) =
      Except.ok ⟨"Emirates Islamic", "credit", ⟨100, 0, 1⟩,
        [⟨"1900-08-14", "RTA-ETISALAT", 100, 0, 100, none, none, none, none,
          "Emirates Islamic", "credit"⟩], none, none⟩ ∧
    ("RTA-ETISALAT" : String) ≠ "PURCHASE AT SOME STORE DUBAI ARE RTA-ETISALAT" := by
  refine ⟨by decide, by decide⟩

/-- Claim C7 as amended. The accumulation behavior holds in `parse_rakbank`
only: every line that is neither boilerplate, nor a statement-period line,
nor a recognized transaction line is appended to the description buffer in
order; on the claim's concrete input the matched transaction carries
`"PURCHASE AT SOME STORE DUBAI ARE"` followed by the line's own description,
and the buffer is cleared afterwards (the next transaction's description has
no trace of it). `parse_emiratesislamic` instead drops unmatched lines
(see the counterexample). -/
theorem C7_rakbank_description_buffer :
    (∀ (st : Rakbank.RakState) (raw : String),
      Rakbank.unclassified raw = true →
      Rakbank.lineStep st raw = some { st with buffer_desc := st.buffer_desc ++ [raw] }) ∧
    Rakbank.parse (Except.ok [["PURCHASE AT", "SOME STORE DUBAI ARE",
        "01/01/2025 STORE AED 100.00 - 1,000.00", "02/01/2025 B AED 3.00 - 4.00"]]) =
      some (Except.ok ⟨"RAKBANK", "credit", ⟨103, 0, 2⟩,
        [⟨"2025-01-01", "PURCHASE AT SOME STORE DUBAI ARE STORE", 100, 0, 100,
          some 1000, none, none, none, "RAKBANK", "credit"⟩,
         ⟨"2025-01-02", "B", 3, 0, 3, some 4, none, none, none, "RAKBANK", "credit"⟩],
        none, none⟩) := by
  constructor
  · intro st raw h
    unfold Rakbank.unclassified at h
    simp only [Bool.and_eq_true, Bool.not_eq_true', Option.isNone_iff_eq_none] at h
    obtain ⟨⟨⟨h1, h2⟩, h3⟩, h4⟩ := h
    unfold Rakbank.lineStep
    simp [h1, h2, h3, h4]
  · decide

/-- Claim C7 witness. The accumulation step at a concrete buffer state and
free-text line. -/
theorem C7_rakbank_description_buffer_witness :
    Rakbank.lineStep ⟨none, none, ["PURCHASE AT"], []⟩ "SOME STORE DUBAI ARE" =
      some ⟨none, none, ["PURCHASE AT", "SOME STORE DUBAI ARE"], []⟩ :=
  C7_rakbank_description_buffer.1 ⟨none, none, ["PURCHASE AT"], []⟩
    "SOME STORE DUBAI ARE" (by decide)

/-- Helper: any transaction assembled by the Python pattern
`debit, credit = 0, 0; if cond: credit = amt else: debit = amt` is balanced. -/
theorem balanced_ite (b : Bool) (a : ℚ) (dt ds bk ct : String) (bal f2 f3 : Option ℚ)
    (f1 : Option String) :
    balancedTxn ⟨dt, ds, if b then 0 else a, if b then a else 0, a, bal, f1, f2, f3, bk, ct⟩ := by
  cases b <;> simp [balancedTxn]

/-- Helper: a successful AED emission appends exactly one balanced
transaction. -/
theorem Rakbank.emitAED_txns (st : Rakbank.RakState)
    (g : String × String × String × Option String × String × Option String)
    (st' : Rakbank.RakState) (h : Rakbank.emitAED st g = some st') :
    ∃ t0, balancedTxn t0 ∧ st'.transactions = st.transactions ++ [t0] := by
  obtain ⟨date, desc, amt_raw, amt_cr, bal_raw, bal_cr⟩ := g
  unfold Rakbank.emitAED at h
  simp only at h
  split at h
  · injection h with h
    subst h
    exact ⟨_, balanced_ite _ _ _ _ _ _ _ _ _ _, rfl⟩
  · exact absurd h (by simp)

/-- Helper: a successful FX emission appends exactly one balanced
transaction. -/
theorem Rakbank.emitFX_txns (st : Rakbank.RakState)
    (g : String × String × String × String × String × Option String)
    (st' : Rakbank.RakState) (h : Rakbank.emitFX st g = some st') :
    ∃ t0, balancedTxn t0 ∧ st'.transactions = st.transactions ++ [t0] := by
  obtain ⟨date, ccy, fx_amt, fx_rate, aed_amt, cr_flag⟩ := g
  unfold Rakbank.emitFX at h
  simp only at h
  split at h
  · injection h with h
    subst h
    exact ⟨_, balanced_ite _ _ _ _ _ _ _ _ _ _, rfl⟩
  · exact absurd h (by simp)

/-- Helper: one rakbank line step either keeps the transaction list or
appends one balanced transaction. -/
theorem Rakbank.lineStep_txns (st : Rakbank.RakState) (raw : String)
    (st' : Rakbank.RakState) (h : Rakbank.lineStep st raw = some st') :
    st'.transactions = st.transactions ∨
    ∃ t0, balancedTxn t0 ∧ st'.transactions = st.transactions ++ [t0] := by
  unfold Rakbank.lineStep at h
  simp only at h
  split at h
  · left
    injection h with h
    subst h
    rfl
  · split at h
    · injection h with h
      subst h
      split
      · left; rfl
      · left; rfl
    · split at h
      · right
        exact Rakbank.emitAED_txns _ _ _ h
      · split at h
        · right
          exact Rakbank.emitFX_txns _ _ _ h
        · left
          injection h with h
          subst h
          rfl

/-- Helper: the balanced-transaction invariant is preserved along a rakbank
line run. -/
theorem Rakbank.runLines_balanced (ls : List String) :
    ∀ (st st' : Rakbank.RakState), Rakbank.runLines st ls = some st' →
      (∀ t ∈ st.transactions, balancedTxn t) →
      ∀ t ∈ st'.transactions, balancedTxn t := by
  induction ls with
  | nil =>
    intro st st' h inv
    unfold Rakbank.runLines at h
    injection h with h
    subst h
    exact inv
  | cons l ls ih =>
    intro st st' h inv
    unfold Rakbank.runLines at h
    split at h
    · exact absurd h (by simp)
    · next st1 hstep =>
      refine ih st1 st' h ?_
      rcases Rakbank.lineStep_txns st l st1 hstep with heq | ⟨t0, hb, heq⟩
      · rw [heq]; exact inv
      · rw [heq]
        intro t ht
        rcases List.mem_append.mp ht with ht | ht
        · exact inv t ht
        · rw [List.mem_singleton.mp ht]
          exact hb

/-- Helper: the invariant is preserved across rakbank pages. -/
theorem Rakbank.runPages_balanced (ps : List (List String)) :
    ∀ (st st' : Rakbank.RakState), Rakbank.runPages st ps = some st' →
      (∀ t ∈ st.transactions, balancedTxn t) →
      ∀ t ∈ st'.transactions, balancedTxn t := by
  induction ps with
  | nil =>
    intro st st' h inv
    unfold Rakbank.runPages at h
    injection h with h
    subst h
    exact inv
  | cons p ps ih =>
    intro st st' h inv
    unfold Rakbank.runPages at h
    split at h
    · exact absurd h (by simp)
    · next st1 hpage =>
      refine ih st1 st' h ?_
      exact Rakbank.runLines_balanced _ _ _ hpage inv

/-- Helper: one emirates line step either keeps the transaction list or
appends one balanced transaction. -/
theorem EmiratesIslamic.emLineStep_txns (st : EmiratesIslamic.EmState) (raw : String) :
    (EmiratesIslamic.lineStep st raw).transactions = st.transactions ∨
    ∃ t0, balancedTxn t0 ∧
      (EmiratesIslamic.lineStep st raw).transactions = st.transactions ++ [t0] := by
  have htxn : ∀ st1 : EmiratesIslamic.EmState,
      (EmiratesIslamic.txnLine st1 raw).transactions = st1.transactions ∨
      ∃ t0, balancedTxn t0 ∧
        (EmiratesIslamic.txnLine st1 raw).transactions = st1.transactions ++ [t0] := by
    intro st1
    unfold EmiratesIslamic.txnLine
    split
    · left; rfl
    · right
      exact ⟨_, balanced_ite _ _ _ _ _ _ _ _ _ _, rfl⟩
  unfold EmiratesIslamic.lineStep
  split
  · left; rfl
  · split
    · left
      split
      · split <;> rfl
      · rfl
    · split
      · split
        · left; rfl
        · split
          · left; rfl
          · left; rfl
      · split
        · split
          · left
            split <;> rfl
          · exact htxn st
        · exact htxn st

/-- Helper: the invariant is preserved along an emirates page and across
pages. -/
theorem EmiratesIslamic.foldl_balanced (ls : List String) :
    ∀ (st : EmiratesIslamic.EmState),
      (∀ t ∈ st.transactions, balancedTxn t) →
      ∀ t ∈ (ls.foldl EmiratesIslamic.lineStep st).transactions, balancedTxn t := by
  induction ls with
  | nil => intro st inv; exact inv
  | cons l ls ih =>
    intro st inv
    rw [List.foldl_cons]
    refine ih _ ?_
    rcases EmiratesIslamic.emLineStep_txns st l with heq | ⟨t0, hb, heq⟩
    · rw [heq]; exact inv
    · rw [heq]
      intro t ht
      rcases List.mem_append.mp ht with ht | ht
      · exact inv t ht
      · rw [List.mem_singleton.mp ht]
        exact hb

theorem EmiratesIslamic.pages_balanced (ps : List (List String)) :
    ∀ (st : EmiratesIslamic.EmState),
      (∀ t ∈ st.transactions, balancedTxn t) →
      ∀ t ∈ (ps.foldl EmiratesIslamic.page st).transactions, balancedTxn t := by
  induction ps with
  | nil => intro st inv; exact inv
  | cons p ps ih =>
    intro st inv
    rw [List.foldl_cons]
    exact ih _ (EmiratesIslamic.foldl_balanced _ _ inv)

/-- Claim C1 counterexample. A zero-amount line ("0.00" matches the amount
pattern) produces a transaction with `debit = 0` **and** `credit = 0`, so
"exactly one of debit/credit is nonzero" fails on the returned list. -/
theorem C1_counterexample :
    EmiratesIslamic.parse (Except.ok [["14 AUG 14 AUG FEE 0.00"]]) =
      Except.ok ⟨"Emirates Islamic", "credit", ⟨0, 0, 1⟩,
        [⟨"1900-08-14", "FEE", 0, 0, 0, none, none, none, none,
          "Emirates Islamic", "credit"⟩], none, none⟩ ∧
    (⟨"1900-08-14", "FEE", 0, 0, 0, none, none, none, none, "Emirates Islamic",
      "credit"⟩ : Txn).debit = 0 ∧
    (⟨"1900-08-14", "FEE", 0, 0, 0, none, none, none, none, "Emirates Islamic",
      "credit"⟩ : Txn).credit = 0 := by
  refine ⟨by decide, by decide, by decide⟩

/-- Claim C1 as amended. For every transaction in a successfully returned list of
either parser, one of debit/credit equals `amount` and the other is exactly 0;
consequently, whenever `amount ≠ 0`, exactly one of debit/credit is nonzero
and it equals `amount`. (The unamended claim fails only for zero-amount
lines, see the counterexample.) -/
theorem C1_debit_credit_invariant :
    (∀ (pdf : Except ErrDict (List (List String))) (r : ParseOk),
      Rakbank.parse pdf = some (Except.ok r) →
      ∀ t ∈ r.transactions, balancedTxn t ∧
        (t.amount ≠ 0 →
          (t.debit ≠ 0 ∧ t.credit = 0 ∧ t.debit = t.amount) ∨
          (t.credit ≠ 0 ∧ t.debit = 0 ∧ t.credit = t.amount))) ∧
    (∀ (pdf : Except ErrDict (List (List String))) (r : ParseOk),
      EmiratesIslamic.parse pdf = Except.ok r →
      ∀ t ∈ r.transactions, balancedTxn t ∧
        (t.amount ≠ 0 →
          (t.debit ≠ 0 ∧ t.credit = 0 ∧ t.debit = t.amount) ∨
          (t.credit ≠ 0 ∧ t.debit = 0 ∧ t.credit = t.amount))) := by
  have step : ∀ t : Txn, balancedTxn t →
      balancedTxn t ∧
        (t.amount ≠ 0 →
          (t.debit ≠ 0 ∧ t.credit = 0 ∧ t.debit = t.amount) ∨
          (t.credit ≠ 0 ∧ t.debit = 0 ∧ t.credit = t.amount)) := by
    intro t hb
    refine ⟨hb, fun hne => ?_⟩
    rcases hb with ⟨h1, h2⟩ | ⟨h1, h2⟩
    · exact Or.inl ⟨by rw [h1]; exact hne, h2, h1⟩
    · exact Or.inr ⟨by rw [h1]; exact hne, h2, h1⟩
  constructor
  · intro pdf r h t ht
    cases pdf with
    | error e => exact absurd h (by simp [Rakbank.parse])
    | ok pages =>
      unfold Rakbank.parse at h
      dsimp only at h
      cases hrp : Rakbank.runPages Rakbank.initState pages with
      | none => rw [hrp] at h; exact absurd h (by simp)
      | some st =>
        rw [hrp] at h
        simp only [Option.some.injEq, Except.ok.injEq] at h
        have hb := Rakbank.runPages_balanced pages Rakbank.initState st hrp
          (by intro t ht; exact absurd ht (List.not_mem_nil t))
        refine step t (hb t ?_)
        have : r.transactions = st.transactions := by rw [← h]; rfl
        rw [← this]
        exact ht
  · intro pdf r h t ht
    cases pdf with
    | error e => exact absurd h (by simp [EmiratesIslamic.parse])
    | ok pages =>
      unfold EmiratesIslamic.parse at h
      simp only [Except.ok.injEq] at h
      have hb := EmiratesIslamic.pages_balanced pages EmiratesIslamic.initState
        (by intro t ht; exact absurd ht (List.not_mem_nil t))
      refine step t (hb t ?_)
      have : r.transactions =
          (pages.foldl EmiratesIslamic.page EmiratesIslamic.initState).transactions := by
        rw [← h]; rfl
      rw [← this]
      exact ht

/-- Claim C1 witness. The invariant applied to a concrete rakbank parse and its
single returned transaction. -/
theorem C1_debit_credit_invariant_witness :
    balancedTxn ⟨"2025-01-01", "STORE", 100, 0, 100, some 1000, none, none, none,
      "RAKBANK", "credit"⟩ ∧
    ((⟨"2025-01-01", "STORE", 100, 0, 100, some 1000, none, none, none,
        "RAKBANK", "credit"⟩ : Txn).amount ≠ 0 →
      ((⟨"2025-01-01", "STORE", 100, 0, 100, some 1000, none, none, none,
          "RAKBANK", "credit"⟩ : Txn).debit ≠ 0 ∧
        (⟨"2025-01-01", "STORE", 100, 0, 100, some 1000, none, none, none,
          "RAKBANK", "credit"⟩ : Txn).credit = 0 ∧
        (⟨"2025-01-01", "STORE", 100, 0, 100, some 1000, none, none, none,
          "RAKBANK", "credit"⟩ : Txn).debit =
          (⟨"2025-01-01", "STORE", 100, 0, 100, some 1000, none, none, none,
            "RAKBANK", "credit"⟩ : Txn).amount) ∨
      ((⟨"2025-01-01", "STORE", 100, 0, 100, some 1000, none, none, none,
          "RAKBANK", "credit"⟩ : Txn).credit ≠ 0 ∧
        (⟨"2025-01-01", "STORE", 100, 0, 100, some 1000, none, none, none,
          "RAKBANK", "credit"⟩ : Txn).debit = 0 ∧
        (⟨"2025-01-01", "STORE", 100, 0, 100, some 1000, none, none, none,
          "RAKBANK", "credit"⟩ : Txn).credit =
          (⟨"2025-01-01", "STORE", 100, 0, 100, some 1000, none, none, none,
            "RAKBANK", "credit"⟩ : Txn).amount)) :=
  C1_debit_credit_invariant.1
    (Except.ok [["01/01/2025 STORE AED 100.00 - 1,000.00"]])
    ⟨"RAKBANK", "credit", ⟨100, 0, 1⟩,
      [⟨"2025-01-01", "STORE", 100, 0, 100, some 1000, none, none, none,
        "RAKBANK", "credit"⟩], none, none⟩
    (by decide)
    ⟨"2025-01-01", "STORE", 100, 0, 100, some 1000, none, none, none,
      "RAKBANK", "credit"⟩
    (by decide)

/-- Helper: an unclassified line only appends itself to the description
buffer. -/
theorem Rakbank.lineStep_unclassified (st : Rakbank.RakState) (raw : String)
    (h : Rakbank.unclassified raw = true) :
    Rakbank.lineStep st raw = some { st with buffer_desc := st.buffer_desc ++ [raw] } := by
  unfold Rakbank.unclassified at h
  simp only [Bool.and_eq_true, Bool.not_eq_true', Option.isNone_iff_eq_none] at h
  obtain ⟨⟨⟨h1, h2⟩, h3⟩, h4⟩ := h
  unfold Rakbank.lineStep
  simp [h1, h2, h3, h4]

/-- Helper: `runLines` splits over list concatenation. -/
theorem Rakbank.runLines_append (xs : List String) :
    ∀ (ys : List String) (st : Rakbank.RakState),
      Rakbank.runLines st (xs ++ ys) =
        (Rakbank.runLines st xs).bind (fun s => Rakbank.runLines s ys) := by
  induction xs with
  | nil =>
    intro ys st
    rfl
  | cons x xs ih =>
    intro ys st
    rw [List.cons_append]
    simp only [Rakbank.runLines]
    cases Rakbank.lineStep st x with
    | none => rfl
    | some st1 => exact ih ys st1

/-- Helper: a run of unclassified lines only extends the description
buffer. -/
theorem Rakbank.runLines_unclassified (junk : List String) :
    ∀ st : Rakbank.RakState, (∀ l ∈ junk, Rakbank.unclassified l = true) →
      Rakbank.runLines st junk = some { st with buffer_desc := st.buffer_desc ++ junk } := by
  induction junk with
  | nil =>
    intro st _
    show some st = _
    congr 1
    obtain ⟨a, b, c, d⟩ := st
    simp
  | cons l junk ih =>
    intro st hall
    simp only [Rakbank.runLines]
    rw [Rakbank.lineStep_unclassified st l (hall l (List.mem_cons_self l junk))]
    dsimp only
    rw [ih _ (fun x hx => hall x (List.mem_cons_of_mem l hx))]
    simp

/-- Helper: stripped non-empty lines pass through the per-page
preprocessing unchanged. -/
theorem Rakbank.prep_id (junk : List String)
    (h : ∀ l ∈ junk, pyStrip l = l ∧ l ≠ "") :
    (junk.map pyStrip).filter (fun l => l ≠ "") = junk := by
  induction junk with
  | nil => rfl
  | cons l junk ih =>
    obtain ⟨h1, h2⟩ := h l (List.mem_cons_self l junk)
    simp only [List.map_cons, h1, List.filter_cons]
    rw [if_pos (by simpa using h2)]
    rw [ih (fun x hx => h x (List.mem_cons_of_mem l hx))]

/-- Helper: `runPages` splits over list concatenation. -/
theorem Rakbank.runPages_append (xs : List (List String)) :
    ∀ (ys : List (List String)) (st : Rakbank.RakState),
      Rakbank.runPages st (xs ++ ys) =
        (Rakbank.runPages st xs).bind (fun s => Rakbank.runPages s ys) := by
  induction xs with
  | nil => intro ys st; rfl
  | cons x xs ih =>
    intro ys st
    rw [List.cons_append]
    simp only [Rakbank.runPages]
    cases Rakbank.page st x with
    | none => rfl
    | some st1 => exact ih ys st1

/-- Helper: a page whose incoming state differs only in the (re-initialized)
description buffer is processed identically. -/
theorem Rakbank.page_congr (s1 s2 : Rakbank.RakState) (p : List String)
    (h1 : s1.statement_from = s2.statement_from) (h2 : s1.statement_to = s2.statement_to)
    (h3 : s1.transactions = s2.transactions) :
    Rakbank.page s1 p = Rakbank.page s2 p := by
  obtain ⟨a1, b1, c1, d1⟩ := s1
  obtain ⟨a2, b2, c2, d2⟩ := s2
  simp only at h1 h2 h3
  subst h1; subst h2; subst h3
  rfl

/-- Helper: across further pages, two states agreeing on everything but the
buffer yield the same statement period and transactions (the leftover buffer
is the only possible difference, and it is dropped on page entry). -/
theorem Rakbank.runPages_congr (ps : List (List String)) :
    ∀ s1 s2 : Rakbank.RakState,
      s1.statement_from = s2.statement_from → s1.statement_to = s2.statement_to →
      s1.transactions = s2.transactions →
      (Rakbank.runPages s1 ps = none ∧ Rakbank.runPages s2 ps = none) ∨
      (∃ r1 r2, Rakbank.runPages s1 ps = some r1 ∧ Rakbank.runPages s2 ps = some r2 ∧
        r1.statement_from = r2.statement_from ∧ r1.statement_to = r2.statement_to ∧
        r1.transactions = r2.transactions) := by
  induction ps with
  | nil =>
    intro s1 s2 h1 h2 h3
    right
    exact ⟨s1, s2, rfl, rfl, h1, h2, h3⟩
  | cons p ps ih =>
    intro s1 s2 h1 h2 h3
    have hpage := Rakbank.page_congr s1 s2 p h1 h2 h3
    simp only [Rakbank.runPages]
    rw [hpage]
    cases Rakbank.page s2 p with
    | none => left; exact ⟨rfl, rfl⟩
    | some st1 => exact ih st1 st1 rfl rfl rfl

/-- Helper: trailing stripped, non-empty, unclassified lines at the end of a
page change only the discarded buffer. -/
theorem Rakbank.page_junk (s : Rakbank.RakState) (p junk : List String)
    (hj : ∀ l ∈ junk, pyStrip l = l ∧ l ≠ "" ∧ Rakbank.unclassified l = true) :
    Rakbank.page s (p ++ junk) =
      (Rakbank.page s p).map
        (fun s' => { s' with buffer_desc := s'.buffer_desc ++ junk }) := by
  unfold Rakbank.page
  rw [List.map_append, List.filter_append,
      Rakbank.prep_id junk (fun l hl => ⟨(hj l hl).1, (hj l hl).2.1⟩),
      Rakbank.runLines_append]
  cases Rakbank.runLines { s with buffer_desc := [] }
      ((p.map pyStrip).filter (fun l => l ≠ "")) with
  | none => rfl
  | some s' =>
    dsimp only [Option.bind, Option.map]
    exact Rakbank.runLines_unclassified junk s' (fun l hl => (hj l hl).2.2)

/-- Claim C10. In `parse_rakbank` the description buffer is re-initialized at
the start of each page: trailing free-text lines of one page never leak into
any later page's transactions — the whole parse result is unchanged if such
trailing lines are removed. -/
theorem C10_page_buffer_reset :
    ∀ (pre : List (List String)) (p junk : List String) (ps : List (List String)),
      (∀ l ∈ junk, pyStrip l = l ∧ l ≠ "" ∧ Rakbank.unclassified l = true) →
      Rakbank.parse (Except.ok (pre ++ (p ++ junk) :: ps)) =
        Rakbank.parse (Except.ok (pre ++ p :: ps)) := by
  intro pre p junk ps hjunk
  have key : ∀ s : Rakbank.RakState,
      (Rakbank.runPages s ((p ++ junk) :: ps) = none ∧
        Rakbank.runPages s (p :: ps) = none) ∨
      (∃ r1 r2, Rakbank.runPages s ((p ++ junk) :: ps) = some r1 ∧
        Rakbank.runPages s (p :: ps) = some r2 ∧
        r1.statement_from = r2.statement_from ∧ r1.statement_to = r2.statement_to ∧
        r1.transactions = r2.transactions) := by
    intro s
    simp only [Rakbank.runPages, Rakbank.page_junk s p junk hjunk]
    cases Rakbank.page s p with
    | none => left; exact ⟨rfl, rfl⟩
    | some s' =>
      dsimp only [Option.map]
      exact Rakbank.runPages_congr ps _ s' rfl rfl rfl
  unfold Rakbank.parse
  dsimp only
  rw [Rakbank.runPages_append, Rakbank.runPages_append]
  cases Rakbank.runPages Rakbank.initState pre with
  | none => rfl
  | some s =>
    dsimp only [Option.bind]
    rcases key s with ⟨hn1, hn2⟩ | ⟨r1, r2, hr1, hr2, e1, e2, e3⟩
    · rw [hn1, hn2]
    · rw [hr1, hr2]
      dsimp only
      rw [e1, e2, e3]

/-- Claim C10 witness. Removing a trailing unclassified line from page one does
not change the parse of a two-page document. -/
theorem C10_page_buffer_reset_witness :
    Rakbank.parse (Except.ok [["01/01/2025 A AED 1.00 - 2.00", "LEFTOVER PAGE TEXT"],
        ["02/01/2025 B AED 3.00 - 4.00"]]) =
      Rakbank.parse (Except.ok [["01/01/2025 A AED 1.00 - 2.00"],
        ["02/01/2025 B AED 3.00 - 4.00"]]) :=
  C10_page_buffer_reset [] ["01/01/2025 A AED 1.00 - 2.00"] ["LEFTOVER PAGE TEXT"]
    [["02/01/2025 B AED 3.00 - 4.00"]] (by decide)
